import Mathlib

/-!
Shallow embedding of `src/parent_and_subagents/agent.py`: the shared
versioned state store (the ADK session state restricted to the string-list
fields used by the tools), the three tool functions `append_to_state`,
`get_latest_state` and `handoff_to`, and the configuration constants of the
`dev_loop` LoopAgent.  Stateful python code is embedded as explicit state
passing: a tool of the python shape `f(tool_context, ...) -> dict` becomes a
Lean function `StateStore -> ... -> Result × StateStore`.
-/

/-- A run's shared state: a mapping from field name to the ordered sequence of
appended string values, modelled as an association list (a python dict of
lists). -/
abbrev StateStore : Type := List (String × List String)

/-- Embeds the python dict read with default, `tool_context.state.get(field, [])`:
the value of the first entry for the field, or the empty list if absent. -/
def getField : StateStore → String → List String
  | [], _ => []
  | (k, w) :: rest, f => if k = f then w else getField rest f

/-- Embeds the python dict write `tool_context.state[field] = value`: replaces
the first entry for the field, or adds one if absent. -/
def setField : StateStore → String → List String → StateStore
  | [], f, v => [(f, v)]
  | (k, w) :: rest, f, v =>
      if k = f then (f, v) :: rest else (k, w) :: setField rest f v

/-- The acknowledgement dict returned by append_to_state,
python value `{"status": "success"}`. -/
structure Ack where
  status : String
deriving DecidableEq, Repr

/-- Embeds `append_to_state` (agent.py lines 20-24): reads the existing
sequence of the field (empty if the field is absent), stores the sequence with
the response appended, and returns the acknowledgement with status
`success`. -/
def append_to_state (state : StateStore) (field : String) (response : String) :
    Ack × StateStore :=
  let existing_state := getField state field
  ({ status := "success" }, setField state field (existing_state ++ [response]))

/-- Embeds the python idiom `xs[-1] if xs else ""` used by get_latest_state:
the last element of the list, or the empty-string sentinel for the empty
list. -/
def lastOrEmpty : List String → String
  | [] => ""
  | [x] => x
  | _ :: x :: xs => lastOrEmpty (x :: xs)

/-- The latest value of a field: the last element of its sequence, or the
empty-string sentinel if the field is empty or was never written (the read
path of get_latest_state, factored over the field name). -/
def latestOf (state : StateStore) (field : String) : String :=
  lastOrEmpty (getField state field)

/-- The dict returned by get_latest_state. -/
structure LatestState where
  latest_code_draft : String
  latest_feedback : String
deriving DecidableEq, Repr

/-- Embeds `get_latest_state` (agent.py lines 25-40): reads the CODE_DRAFT and
CRITICAL_FEEDBACK sequences, returns the last element of each (or the empty
sentinel), and leaves the state unchanged. -/
def get_latest_state (state : StateStore) : LatestState × StateStore :=
  let drafts := getField state "CODE_DRAFT"
  let feedbacks := getField state "CRITICAL_FEEDBACK"
  ({ latest_code_draft := lastOrEmpty drafts,
     latest_feedback := lastOrEmpty feedbacks }, state)

/-- The inner dict of a transfer directive, python `{"agent_name": name}`. -/
structure TransferTarget where
  agent_name : String
deriving DecidableEq, Repr

/-- The dict returned by handoff_to,
python `{"transfer_to_agent": {"agent_name": agent_name}}`. -/
structure HandoffResult where
  transfer_to_agent : TransferTarget
deriving DecidableEq, Repr

/-- Embeds `handoff_to` (agent.py lines 42-48): logs and unconditionally
returns the transfer directive naming the given agent; the function performs
no validation of the name. -/
def handoff_to (agent_name : String) : HandoffResult :=
  { transfer_to_agent := { agent_name := agent_name } }

/-- The names of dev_loop's two sub-agents, in order (agent.py line 171):
code_writer (the producer) then code_critic (the reviewer). -/
def dev_loop_sub_agent_names : List String := ["code_writer", "code_critic"]

/-- The configured round cap of dev_loop, `max_iterations=5`
(agent.py line 172). -/
def dev_loop_max_iterations : Nat := 5

/-- A sequence of append_to_state calls applied in order.  append_to_state is
the only operation of the store that mutates it: get_latest_state returns the
state unchanged and handoff_to does not touch it. -/
def applyAppends (s : StateStore) : List (String × String) → StateStore
  | [] => s
  | (f, v) :: ops => applyAppends (append_to_state s f v).2 ops

/-! Helper lemmas about the store primitives. -/

theorem getField_setField_self (s : StateStore) (f : String) (v : List String) :
    getField (setField s f v) f = v := by
  induction s with
  | nil => simp [setField, getField]
  | cons kv rest ih =>
    obtain ⟨k, w⟩ := kv
    by_cases h : k = f
    · simp [setField, getField, h]
    · simp [setField, getField, h, ih]

theorem getField_setField_other (s : StateStore) (f g : String)
    (v : List String) (h : g ≠ f) :
    getField (setField s f v) g = getField s g := by
  have hfg : f ≠ g := Ne.symm h
  induction s with
  | nil => simp [setField, getField, hfg]
  | cons kv rest ih =>
    obtain ⟨k, w⟩ := kv
    by_cases hk : k = f
    · subst hk
      simp [setField, getField, hfg]
    · simp [setField, getField, hk, ih]

theorem lastOrEmpty_append_single (xs : List String) (v : String) :
    lastOrEmpty (xs ++ [v]) = v := by
  induction xs with
  | nil => rfl
  | cons x xs ih =>
    cases xs with
    | nil => rfl
    | cons y ys =>
      simpa only [List.cons_append, lastOrEmpty] using ih

theorem lastOrEmpty_eq_getLast (xs : List String) :
    lastOrEmpty xs = xs.getLast?.getD "" := by
  induction xs with
  | nil => rfl
  | cons x xs ih =>
    cases xs with
    | nil => rfl
    | cons y ys =>
      simpa only [lastOrEmpty, List.getLast?_cons_cons] using ih

theorem getField_append_self (s : StateStore) (f v : String) :
    getField (append_to_state s f v).2 f = getField s f ++ [v] := by
  simp [append_to_state, getField_setField_self]

theorem getField_append_other (s : StateStore) (f g v : String) (h : g ≠ f) :
    getField (append_to_state s f v).2 g = getField s g := by
  simp [append_to_state, getField_setField_other s f g _ h]

/-! Loop controller model.  The LoopAgent class that runs dev_loop is
framework code (google.adk), not part of src/, so the controller is modelled
from the spec's state machine; the configuration it runs with (the round cap 5
and the producer-first sub-agent order) comes from agent.py lines 168-173. -/

/-- The control states of the loop controller. -/
inductive LoopState where
  | awaitingProducer
  | awaitingReviewer
  | terminated
deriving DecidableEq, Repr

/-- The two alternating roles: producer is code_writer, reviewer is
code_critic. -/
inductive Role where
  | producer
  | reviewer
deriving DecidableEq, Repr

/-- Modelled from the spec: the Loop Controller's transition function (spec
section 4.4); the LoopAgent implementing it is framework code missing from
src/.  One application executes one round and increments the round counter: a
producer round hands off to the reviewer, a reviewer round hands back to the
producer unless the reviewer emits the terminate signal, and reaching the
configured maximum round count forces termination regardless of the directive.
`term n` tells whether the reviewer emits terminate on round n. -/
def stepRound (maxIter : Nat) (term : Nat → Bool) :
    LoopState × Nat → LoopState × Nat
  | (LoopState.terminated, n) => (LoopState.terminated, n)
  | (LoopState.awaitingProducer, n) =>
      (if n + 1 = maxIter then LoopState.terminated
       else LoopState.awaitingReviewer, n + 1)
  | (LoopState.awaitingReviewer, n) =>
      (if term (n + 1) = true ∨ maxIter ≤ n + 1 then LoopState.terminated
       else LoopState.awaitingProducer, n + 1)

/-- Modelled from the spec: the loop run after k executed rounds, starting in
the initial state AWAITING_PRODUCER with round counter 0 (spec section 4.4);
the LoopAgent driving the rounds is framework code missing from src/. -/
def runLoop (maxIter : Nat) (term : Nat → Bool) : Nat → LoopState × Nat
  | 0 => (LoopState.awaitingProducer, 0)
  | k + 1 => stepRound maxIter term (runLoop maxIter term k)

/-- The role that executes round r (1-based) if the loop is still running
then: the participant the controller awaits after r - 1 completed rounds, or
none if the loop has already terminated. -/
def roleOfRound (maxIter : Nat) (term : Nat → Bool) (r : Nat) : Option Role :=
  match (runLoop maxIter term (r - 1)).1 with
  | LoopState.awaitingProducer => some Role.producer
  | LoopState.awaitingReviewer => some Role.reviewer
  | LoopState.terminated => none

theorem runLoop_parity (maxIter : Nat) (term : Nat → Bool) (k : Nat) :
    ((runLoop maxIter term k).1 = LoopState.awaitingProducer → k % 2 = 0) ∧
    ((runLoop maxIter term k).1 = LoopState.awaitingReviewer → k % 2 = 1) := by
  induction k with
  | zero => simp [runLoop]
  | succ k ih =>
    obtain ⟨ih1, ih2⟩ := ih
    rcases hr : runLoop maxIter term k with ⟨st, n⟩
    rw [hr] at ih1 ih2
    cases st with
    | awaitingProducer =>
      have hk : k % 2 = 0 := ih1 rfl
      constructor <;> intro hst <;>
        simp only [runLoop, hr, stepRound] at hst <;>
        split at hst <;> simp_all <;> omega
    | awaitingReviewer =>
      have hk : k % 2 = 1 := ih2 rfl
      constructor <;> intro hst <;>
        simp only [runLoop, hr, stepRound] at hst <;>
        split at hst <;> simp_all <;> omega
    | terminated =>
      constructor <;> intro hst <;>
        simp only [runLoop, hr, stepRound] at hst <;> simp_all

/-! Claim theorems. -/

/-- C1: for every state store, field name and value, append_to_state appends
the value to that field's sequence, creating the field as a one-element
sequence if it was absent (an absent field reads as the empty sequence), and
always returns the success acknowledgement; the function is total, so no
input makes it fail. -/
theorem append_always_succeeds_and_appends (s : StateStore) (f v : String) :
    (append_to_state s f v).1 = { status := "success" } ∧
    getField (append_to_state s f v).2 f = getField s f ++ [v] ∧
    (getField s f = [] → getField (append_to_state s f v).2 f = [v]) := by
  refine ⟨rfl, getField_append_self s f v, fun h => ?_⟩
  rw [getField_append_self s f v, h]
  rfl

/-- C1 witness: the theorem applied to the empty store, the CODE_DRAFT field
and a concrete value. -/
theorem append_always_succeeds_and_appends_witness :
    (append_to_state [] "CODE_DRAFT" "x").1 = { status := "success" } ∧
    getField (append_to_state [] "CODE_DRAFT" "x").2 "CODE_DRAFT" =
      getField ([] : StateStore) "CODE_DRAFT" ++ ["x"] ∧
    (getField ([] : StateStore) "CODE_DRAFT" = [] →
      getField (append_to_state [] "CODE_DRAFT" "x").2 "CODE_DRAFT" = ["x"]) :=
  append_always_succeeds_and_appends [] "CODE_DRAFT" "x"

/-- C2: for every state store and every field that has never been written, the
latest-value read returns the empty-string sentinel; it is a total function
(so it never raises), get_latest_state leaves the state unchanged, and a
repeated call on the unchanged state returns the same result. -/
theorem latest_unwritten_sentinel (s : StateStore) (f : String)
    (h : getField s f = []) :
    latestOf s f = "" ∧
    (get_latest_state s).2 = s ∧
    get_latest_state ((get_latest_state s).2) = get_latest_state s := by
  refine ⟨?_, rfl, rfl⟩
  rw [latestOf, h]
  rfl

/-- C2 witness: the theorem applied to the empty store and the CODE_DRAFT
field, where the never-written hypothesis holds by computation. -/
theorem latest_unwritten_sentinel_witness :
    latestOf [] "CODE_DRAFT" = "" ∧
    (get_latest_state []).2 = ([] : StateStore) ∧
    get_latest_state ((get_latest_state []).2) = get_latest_state [] :=
  latest_unwritten_sentinel [] "CODE_DRAFT" rfl

/-- C3: for every state store, get_latest_state returns, in one call, exactly
the pair of the last element of the CODE_DRAFT sequence and the last element
of the CRITICAL_FEEDBACK sequence, with the empty-string sentinel substituted
for an empty or absent field, and does not change the state. -/
theorem get_latest_state_is_last_pair (s : StateStore) :
    (get_latest_state s).1.latest_code_draft =
      ((getField s "CODE_DRAFT").getLast?).getD "" ∧
    (get_latest_state s).1.latest_feedback =
      ((getField s "CRITICAL_FEEDBACK").getLast?).getD "" ∧
    (get_latest_state s).2 = s :=
  ⟨lastOrEmpty_eq_getLast _, lastOrEmpty_eq_getLast _, rfl⟩

/-- C4: the store is append-only: applying any sequence of append operations
(the store's only mutating operation) extends every field's sequence on the
right, never shrinking or reordering it, and the extension is non-empty —
the old sequence is a strict prefix — whenever the sequence of operations
appends to that field. -/
theorem store_append_only (s : StateStore) (ops : List (String × String))
    (f : String) :
    ∃ t, getField (applyAppends s ops) f = getField s f ++ t ∧
      (f ∈ ops.map Prod.fst → t ≠ []) := by
  induction ops generalizing s with
  | nil =>
    exact ⟨[], by simp [applyAppends], by simp⟩
  | cons op rest ih =>
    obtain ⟨g, v⟩ := op
    obtain ⟨t, ht, hne⟩ := ih (append_to_state s g v).2
    by_cases hfg : f = g
    · subst hfg
      refine ⟨[v] ++ t, ?_, by simp⟩
      rw [applyAppends, ht, getField_append_self, List.append_assoc]
    · refine ⟨t, ?_, ?_⟩
      · rw [applyAppends, ht, getField_append_other s g f v hfg]
      · intro hmem
        refine hne ?_
        simpa [hfg] using hmem

/-- C4 witness: the theorem applied to the empty store and a two-operation
sequence that appends to CODE_DRAFT. -/
theorem store_append_only_witness :
    ∃ t, getField (applyAppends []
        [("CODE_DRAFT", "a"), ("CRITICAL_FEEDBACK", "b")]) "CODE_DRAFT" =
      getField ([] : StateStore) "CODE_DRAFT" ++ t ∧
      ("CODE_DRAFT" ∈
          [("CODE_DRAFT", "a"), ("CRITICAL_FEEDBACK", "b")].map Prod.fst →
        t ≠ []) :=
  store_append_only [] [("CODE_DRAFT", "a"), ("CRITICAL_FEEDBACK", "b")]
    "CODE_DRAFT"

/-- C9 (frame property): appending to field F leaves every other field G
unchanged: both its full sequence and its latest value read the same before
and after the append. -/
theorem append_frame (s : StateStore) (F v G : String) (h : G ≠ F) :
    getField (append_to_state s F v).2 G = getField s G ∧
    latestOf (append_to_state s F v).2 G = latestOf s G := by
  have hg := getField_append_other s F G v h
  exact ⟨hg, by rw [latestOf, latestOf, hg]⟩

/-- C9 witness: the theorem applied to a store holding one draft, appending to
CODE_DRAFT and reading CRITICAL_FEEDBACK. -/
theorem append_frame_witness :
    getField (append_to_state [("CODE_DRAFT", ["d1"])] "CODE_DRAFT" "d2").2
        "CRITICAL_FEEDBACK" =
      getField [("CODE_DRAFT", ["d1"])] "CRITICAL_FEEDBACK" ∧
    latestOf (append_to_state [("CODE_DRAFT", ["d1"])] "CODE_DRAFT" "d2").2
        "CRITICAL_FEEDBACK" =
      latestOf [("CODE_DRAFT", ["d1"])] "CRITICAL_FEEDBACK" :=
  append_frame [("CODE_DRAFT", ["d1"])] "CODE_DRAFT" "d2" "CRITICAL_FEEDBACK"
    (by decide)

/-- C10 (round trip): for every store, field and value, the latest value of
the field immediately after append_to_state on that field is exactly the
appended value, whether or not the field existed before. -/
theorem latest_after_append (s : StateStore) (F v : String) :
    latestOf (append_to_state s F v).2 F = v := by
  rw [latestOf, getField_append_self, lastOrEmpty_append_single]

/-- C5 counterexample: handoff_to does not reject a directive naming a
participant outside dev_loop's two-role set: called with "greeter" — not a
sub-agent of dev_loop — it still emits a transfer directive naming
"greeter". -/
theorem handoff_misroute_not_rejected :
    (handoff_to "greeter").transfer_to_agent.agent_name = "greeter" ∧
    "greeter" ∉ dev_loop_sub_agent_names := by
  refine ⟨rfl, ?_⟩
  simp [dev_loop_sub_agent_names]

/-- C5 amended: the handoff_to tool performs no validation of the named peer:
for every agent name, including every name outside dev_loop's two-role
sub-agent set, it emits a transfer directive naming exactly that agent
(rejection of misrouted directives is delegated to prompt text, not enforced
by the tool). -/
theorem handoff_emits_any_name (name : String)
    (h : name ∉ dev_loop_sub_agent_names) :
    (handoff_to name).transfer_to_agent.agent_name = name := rfl

/-- C5 amended witness: the amended theorem applied to the out-of-set name
"greeter". -/
theorem handoff_emits_any_name_witness :
    (handoff_to "greeter").transfer_to_agent.agent_name = "greeter" :=
  handoff_emits_any_name "greeter" (by simp [dev_loop_sub_agent_names])

/-- C6: the configured round cap of dev_loop is the positive integer 5, and
for every reviewer policy that never emits the terminate signal, the loop is
in TERMINATED after exactly 5 rounds — the round counter equals the cap and
the loop was not terminated at any earlier round — so it never runs
unboundedly. -/
theorem round_cap_liveness (term : Nat → Bool) (h : ∀ n, term n = false) :
    dev_loop_max_iterations = 5 ∧
    0 < dev_loop_max_iterations ∧
    (runLoop dev_loop_max_iterations term dev_loop_max_iterations).1 =
      LoopState.terminated ∧
    (runLoop dev_loop_max_iterations term dev_loop_max_iterations).2 =
      dev_loop_max_iterations ∧
    ∀ k, k < dev_loop_max_iterations →
      (runLoop dev_loop_max_iterations term k).1 ≠ LoopState.terminated := by
  refine ⟨rfl, by simp [dev_loop_max_iterations], ?_, ?_, ?_⟩
  · simp [dev_loop_max_iterations, runLoop, stepRound, h]
  · simp [dev_loop_max_iterations, runLoop, stepRound, h]
  · intro k hk
    rw [dev_loop_max_iterations] at hk
    interval_cases k <;>
      simp [dev_loop_max_iterations, runLoop, stepRound, h]

/-- C6 witness: the theorem applied to the reviewer policy that is constantly
false. -/
theorem round_cap_liveness_witness :
    dev_loop_max_iterations = 5 ∧
    0 < dev_loop_max_iterations ∧
    (runLoop dev_loop_max_iterations (fun _ => false)
        dev_loop_max_iterations).1 = LoopState.terminated ∧
    (runLoop dev_loop_max_iterations (fun _ => false)
        dev_loop_max_iterations).2 = dev_loop_max_iterations ∧
    ∀ k, k < dev_loop_max_iterations →
      (runLoop dev_loop_max_iterations (fun _ => false) k).1 ≠
        LoopState.terminated :=
  round_cap_liveness (fun _ => false) (fun _ => rfl)

/-- C7: in every run, for every round cap and reviewer policy, each executed
round r (one the loop reaches without having terminated) runs the producer
when r is odd and the reviewer when r is even: the roles strictly alternate
producer, reviewer, producer, ... from round 1, and never run out of turn. -/
theorem roles_strictly_alternate (maxIter : Nat) (term : Nat → Bool) (r : Nat)
    (h1 : 1 ≤ r)
    (h2 : (runLoop maxIter term (r - 1)).1 ≠ LoopState.terminated) :
    roleOfRound maxIter term r =
      some (if r % 2 = 1 then Role.producer else Role.reviewer) := by
  obtain ⟨hp, hq⟩ := runLoop_parity maxIter term (r - 1)
  rw [roleOfRound]
  rcases hst : (runLoop maxIter term (r - 1)).1 with _ | _ | _
  · have : (r - 1) % 2 = 0 := hp hst
    have hr : r % 2 = 1 := by omega
    simp [hr]
  · have : (r - 1) % 2 = 1 := hq hst
    have hr : r % 2 = 0 := by omega
    simp [hr]
  · exact absurd hst h2

/-- C7 witness: round 1 of the reference configuration (cap 5, reviewer never
terminating) runs the producer. -/
theorem roles_strictly_alternate_witness :
    roleOfRound 5 (fun _ => false) 1 =
      some (if 1 % 2 = 1 then Role.producer else Role.reviewer) :=
  roles_strictly_alternate 5 (fun _ => false) 1 (by decide)
    (by simp [runLoop])
